import Mathlib

set_option maxHeartbeats 1000000
set_option maxRecDepth 8192

/-! Verification development for the pacosako backend: a shallow embedding of
the generic instance manager (src/backend/src/instance_manager.rs), the game
timer (src/backend/src/timer.rs) and the database storage round trip
(src/backend/src/db/game.rs), together with proofs of the specified
properties. -/

namespace PacosakoVerif

/-- Sender handles (ws::Sender values) are equality-comparable, hashable,
cloneable connection handles; they are modelled as natural numbers. -/
abbrev Sender := Nat

/-- Context (instance_manager.rs): the two ordered queues of outgoing server
messages an instance handler fills, `reply_queue` for the sender only and
`broadcast_queue` for every subscriber. -/
structure Context (Sm : Type) where
  reply_queue : List Sm
  broadcast_queue : List Sm
deriving DecidableEq

/-- Capability bundle for the generic parameters of the instance manager: the
`Instance`, `ClientMessage` and `ServerMessage` traits of instance_manager.rs.
`handleMessage` is `Instance::handle_message`, returning the mutated instance
together with the final content of the fresh Context it was handed. -/
structure InstanceImpl (I Cm Sm : Type) where
  newWithKey : String → I
  msgKey : Cm → String
  subscribeMsg : String → Cm
  errorMsg : String → Sm
  handleMessage : I → Cm → I × Context Sm

/-- Lookup in an association list; models HashMap::get / get_mut. -/
def alookup {κ α : Type} [DecidableEq κ] (k : κ) : List (κ × α) → Option α
  | [] => none
  | p :: rest => if p.1 = k then some p.2 else alookup k rest

/-- Insert or replace in an association list; models HashMap::insert. -/
def aupdate {κ α : Type} [DecidableEq κ] (k : κ) (v : α) : List (κ × α) → List (κ × α)
  | [] => [(k, v)]
  | p :: rest => if p.1 = k then (k, v) :: rest else p :: aupdate k v rest

/-- HashSet::insert: add an element when it is absent, keep the set otherwise. -/
def hsInsert {α : Type} [DecidableEq α] (x : α) (l : List α) : List α :=
  if x ∈ l then l else l ++ [x]

/-- HashMap::contains_key. -/
def contains_key {κ α : Type} [DecidableEq κ] (map : List (κ × α)) (k : κ) : Bool :=
  (alookup k map).isSome

/-- ClientData (instance_manager.rs): the set of instance keys one client has
subscribed to. -/
structure ClientData where
  connected_to : List String
deriving DecidableEq

/-- InstanceMetadata (instance_manager.rs): one instance value plus its
subscriber set. The Rust field `instance` is renamed `inst` because `instance`
is a Lean keyword. -/
structure InstanceMetadata (I : Type) where
  inst : I
  clients : List Sender
deriving DecidableEq

/-- SyncManager (instance_manager.rs): the registry of instances plus the
client table, the single state guarded by the manager's lock. -/
structure SyncManager (I : Type) where
  instances : List (String × InstanceMetadata I)
  clients : List (Sender × ClientData)
deriving DecidableEq

/-- SyncManager::new: the empty manager. -/
def SyncManager.new {I : Type} : SyncManager I := ⟨[], []⟩

/-- Decimal digits of a natural number, least significant digit first. The
first argument is fuel bounding the recursion depth of the division loop. -/
def digitsRevAux : Nat → Nat → List Nat
  | _, 0 => []
  | 0, _ + 1 => []
  | fuel + 1, n + 1 => (n + 1) % 10 :: digitsRevAux fuel ((n + 1) / 10)

/-- Decimal digits of a natural number, least significant digit first. -/
def digitsRev (n : Nat) : List Nat := digitsRevAux n n

/-- Value of a least-significant-first digit list, for the digit proofs. -/
def ofDigitsRev : List Nat → Nat
  | [] => 0
  | d :: ds => d + 10 * ofDigitsRev ds

/-- The ASCII character of one decimal digit value. -/
def digitChar (d : Nat) : Char :=
  match d with
  | 0 => '0' | 1 => '1' | 2 => '2' | 3 => '3' | 4 => '4'
  | 5 => '5' | 6 => '6' | 7 => '7' | 8 => '8' | _ => '9'

/-- Decimal formatting of a natural number, as Rust's format "{}" produces. -/
def formatNat (n : Nat) : List Char :=
  if n = 0 then ['0'] else ((digitsRev n).map digitChar).reverse

/-- Decimal formatting, packaged as a string. -/
def formatNatStr (n : Nat) : String := ⟨formatNat n⟩

/-- generate_key (instance_manager.rs): one random draw r in the range
0..9000 is formatted as the decimal string of r + 1000. Draws are modelled as
arbitrary naturals reduced modulo 9000. -/
def generate_key (r : Nat) : String := formatNatStr (r % 9000 + 1000)

/-- generate_unique_key (instance_manager.rs): draw keys until one is not in
the map. The random number generator is modelled by the list of its successive
draws; running off the end of the list (result none) represents a retry loop
that has not terminated within those draws. -/
def generate_unique_key {α : Type} (map : List (String × α)) : List Nat → Option String
  | [] => none
  | r :: rs =>
    let rand_string := generate_key r
    if contains_key map rand_string then generate_unique_key map rs else some rand_string

/-- Error text of SyncManager::error_no_instance. -/
def errorNoInstanceText (key : String) : String :=
  "There is no instance with key " ++ key ++ "."

/-- SyncManager::error_no_instance. -/
def error_no_instance {I Cm Sm : Type} (impl : InstanceImpl I Cm Sm) (key : String) : Sm :=
  impl.errorMsg (errorNoInstanceText key)

/-- Error text of the duplicate-subscription reply in SyncManager::subscribe. -/
def alreadyConnectedText (key : String) : String :=
  "Client is already connected to " ++ key ++ "."

/-- SyncManager::handle_message_for_instance: run the handler on a fresh
Context, then drain the reply queue to the sender and the broadcast queue to
every subscriber. Sends are modelled as the returned trace of
(recipient, message) pairs, in the order the Rust code performs them. -/
def handle_message_for_instance {I Cm Sm : Type} (impl : InstanceImpl I Cm Sm)
    (message : Cm) (s : Sender) (meta : InstanceMetadata I) :
    InstanceMetadata I × List (Sender × Sm) :=
  let r := impl.handleMessage meta.inst message
  ({ meta with inst := r.1 },
    r.2.reply_queue.map (fun m => (s, m)) ++
      r.2.broadcast_queue.flatMap (fun m => meta.clients.map (fun c => (c, m))))

/-- SyncManager::handle_message: route a message by the key it carries. -/
def handle_message {I Cm Sm : Type} (impl : InstanceImpl I Cm Sm) (st : SyncManager I)
    (message : Cm) (s : Sender) : SyncManager I × List (Sender × Sm) :=
  let key := impl.msgKey message
  match alookup key st.instances with
  | some meta =>
    let r := handle_message_for_instance impl message s meta
    ({ st with instances := aupdate key r.1 st.instances }, r.2)
  | none => (st, [(s, error_no_instance impl key)])

/-- SyncManager::new_instance, with the rng draws passed explicitly. -/
def new_instance {I Cm Sm : Type} (impl : InstanceImpl I Cm Sm) (st : SyncManager I)
    (tape : List Nat) : Option (SyncManager I × String) :=
  match generate_unique_key st.instances tape with
  | none => none
  | some key =>
    some ({ st with instances := aupdate key ⟨impl.newWithKey key, []⟩ st.instances }, key)

/-- SyncManager::subscribe. The pair r mirrors the Rust locals: r.1 is
client_already_connected and r.2 the client table after the unconditional
connected_to.insert of the key (a no-op when the key is already present). -/
def subscribe {I Cm Sm : Type} (impl : InstanceImpl I Cm Sm) (st : SyncManager I)
    (key : String) (s : Sender) : SyncManager I × List (Sender × Sm) :=
  match alookup key st.instances with
  | some meta =>
    let r : Bool × List (Sender × ClientData) :=
      match alookup s st.clients with
      | some cd =>
        (decide (key ∈ cd.connected_to), aupdate s ⟨hsInsert key cd.connected_to⟩ st.clients)
      | none => (false, aupdate s ⟨hsInsert key []⟩ st.clients)
    if r.1 then
      ({ st with clients := r.2 }, [(s, impl.errorMsg (alreadyConnectedText key))])
    else
      let meta2 := { meta with clients := hsInsert s meta.clients }
      let q := handle_message_for_instance impl (impl.subscribeMsg key) s meta2
      ({ instances := aupdate key q.1 st.instances, clients := r.2 }, q.2)
  | none => (st, [(s, error_no_instance impl key)])

/-- SyncManager::send_message: sender.send(message) either succeeds or the
code reaches the todo! panic. The transport's behavior is the predicate
sendOk; the unused message argument mirrors the Rust signature. -/
def send_message {Sm : Type} (sendOk : Sender → Bool) (s : Sender) (_message : Sm) :
    Except String Unit :=
  if sendOk s then Except.ok () else Except.error "not yet implemented: handle ws send errors"

/-- Outcome of performing every send of a delivery trace in order, stopping at
the first panic, as the draining loops of the manager do. -/
def sendResults {Sm : Type} (sendOk : Sender → Bool) : List (Sender × Sm) → Except String Unit
  | [] => Except.ok ()
  | p :: rest =>
    match send_message sendOk p.1 p.2 with
    | Except.ok _ => sendResults sendOk rest
    | Except.error e => Except.error e

/-- Subscriber set of the instance stored at a key (empty when absent). -/
def subscribers {I : Type} (st : SyncManager I) (key : String) : List Sender :=
  match alookup key st.instances with
  | some meta => meta.clients
  | none => []

/-- Keys listed in a sender's client-table entry (empty when the sender is
unknown). -/
def connectedTo {I : Type} (st : SyncManager I) (s : Sender) : List String :=
  match alookup s st.clients with
  | some cd => cd.connected_to
  | none => []

/-- The subscriber sets and the client table agree on membership of every
(sender, key) pair. -/
def SubInvariant {I : Type} (st : SyncManager I) : Prop :=
  ∀ key s, s ∈ subscribers st key ↔ key ∈ connectedTo st s

/-- Manager states reachable from the empty manager by any sequence of
new_instance, handle_message and subscribe calls. -/
inductive Reachable {I Cm Sm : Type} (impl : InstanceImpl I Cm Sm) : SyncManager I → Prop
  | empty : Reachable impl SyncManager.new
  | newi {st st2 : SyncManager I} {tape : List Nat} {key : String} :
      Reachable impl st → new_instance impl st tape = some (st2, key) → Reachable impl st2
  | msg {st : SyncManager I} (m : Cm) (s : Sender) :
      Reachable impl st → Reachable impl (handle_message impl st m s).1
  | sub {st : SyncManager I} (key : String) (s : Sender) :
      Reachable impl st → Reachable impl (subscribe impl st key s).1

/-- Messages a given recipient receives from a delivery trace, in order. -/
def deliveriesTo {Sm : Type} (r : Sender) : List (Sender × Sm) → List Sm
  | [] => []
  | p :: rest => if p.1 = r then p.2 :: deliveriesTo r rest else deliveriesTo r rest

/-- Runs a sequence of new_instance calls, one rng tape per call, collecting
the returned keys; the run stops when a call does not terminate within its
tape. -/
def run_new_instances {I Cm Sm : Type} (impl : InstanceImpl I Cm Sm) :
    SyncManager I → List (List Nat) → List String
  | _, [] => []
  | st, tape :: tapes =>
    match new_instance impl st tape with
    | none => []
    | some r => r.2 :: run_new_instances impl r.1 tapes

/-- The string sub occurs as a contiguous substring of s. -/
def hasSubstring (s sub : String) : Prop := ∃ pre post, s = pre ++ sub ++ post

/-- Modelled from the spec: pacosako::PlayerColor. The crate root declaring it
is not among the given sources; its use in timer.rs and export.rs fixes the
two variants White and Black. -/
inductive PlayerColor
  | White
  | Black
deriving DecidableEq

/-- The opponent of a player, used to state that the other clock is untouched. -/
def PlayerColor.other : PlayerColor → PlayerColor
  | .White => .Black
  | .Black => .White

/-- TimerState (timer.rs). -/
inductive TimerState
  | Paused
  | Running
  | Timeout (p : PlayerColor)
deriving DecidableEq

/-- TimerConfig (timer.rs); durations are integer nanoseconds. -/
structure TimerConfig where
  time_budget_white : Int
  time_budget_black : Int
deriving DecidableEq

/-- Timer (timer.rs); timestamps and durations are integer nanoseconds. -/
structure Timer where
  last_timestamp : Int
  time_left_white : Int
  time_left_black : Int
  timer_state : TimerState
  config : TimerConfig
deriving DecidableEq

/-- From impl of TimerConfig for Timer (timer.rs); Utc::now() is passed
explicitly. -/
def timerFromConfig (config : TimerConfig) (now : Int) : Timer :=
  ⟨now, config.time_budget_white, config.time_budget_black, TimerState.Paused, config⟩

/-- Timer::start (timer.rs). -/
def Timer.start (t : Timer) (start_time : Int) : Timer :=
  if t.timer_state = TimerState.Paused then
    { t with last_timestamp := start_time, timer_state := TimerState.Running }
  else t

/-- Timer::use_time (timer.rs). -/
def use_time (t : Timer) (player : PlayerColor) (now : Int) : Timer × TimerState :=
  if t.timer_state ≠ TimerState.Running then (t, t.timer_state)
  else
    let time_passed := now - t.last_timestamp
    let t1 :=
      match player with
      | PlayerColor.White => { t with time_left_white := t.time_left_white - time_passed }
      | PlayerColor.Black => { t with time_left_black := t.time_left_black - time_passed }
    let time_left :=
      match player with
      | PlayerColor.White => t1.time_left_white
      | PlayerColor.Black => t1.time_left_black
    let t2 := { t1 with last_timestamp := now }
    let t3 :=
      if time_left ≤ 0 then { t2 with timer_state := TimerState.Timeout player } else t2
    (t3, t3.timer_state)

/-- Remaining time of one player, a readability accessor for the theorems. -/
def Timer.time_left (t : Timer) : PlayerColor → Int
  | PlayerColor.White => t.time_left_white
  | PlayerColor.Black => t.time_left_black

/-- One ASCII decimal digit back to its value; models the digit handling of
Rust's str::parse for integers. -/
def charDigit (c : Char) : Option Nat :=
  if c = '0' then some 0 else if c = '1' then some 1 else if c = '2' then some 2
  else if c = '3' then some 3 else if c = '4' then some 4 else if c = '5' then some 5
  else if c = '6' then some 6 else if c = '7' then some 7 else if c = '8' then some 8
  else if c = '9' then some 9 else none

/-- Accumulating digit scan of str::parse: fold the digits left to right,
failing at the first non-digit character. -/
def parseDigitsAux : Nat → List Char → Option Nat
  | acc, [] => some acc
  | acc, c :: cs =>
    match charDigit c with
    | some d => parseDigitsAux (10 * acc + d) cs
    | none => none

/-- Digit scan of a nonempty character list; empty input is a parse error. -/
def parseNatChars : List Char → Option Nat
  | [] => none
  | cs => parseDigitsAux 0 cs

/-- str::parse for i64 (used by db/game.rs as self.key.parse()): an optional
sign followed by at least one digit, rejecting values outside the i64 range. -/
def parseI64 (s : String) : Option Int :=
  match s.data with
  | [] => none
  | c :: cs =>
    if c = '-' then
      (parseNatChars cs).bind (fun n => if (n : Int) ≤ 2 ^ 63 then some (-(n : Int)) else none)
    else if c = '+' then
      (parseNatChars cs).bind (fun n => if (n : Int) ≤ 2 ^ 63 - 1 then some (n : Int) else none)
    else
      (parseNatChars (c :: cs)).bind
        (fun n => if (n : Int) ≤ 2 ^ 63 - 1 then some (n : Int) else none)

/-- Decimal formatting of an i64 value, as format "{}" of stored.id produces
it in db/game.rs. -/
def formatI64 (i : Int) : String :=
  if i < 0 then ⟨'-' :: formatNat i.natAbs⟩ else ⟨formatNat i.natAbs⟩

/-- Modelled from the spec: sync_match::SyncronizedMatch is declared outside
the given sources; its fields (key, actions, timer) are fixed by their use in
the StoreAs impl of db/game.rs. The action history and the timer payload stay
abstract type parameters. -/
structure SyncronizedMatch (A T : Type) where
  key : String
  actions : A
  timer : Option T
deriving DecidableEq

/-- RawGame (db/game.rs): the database representation, JSON blobs plus an
integer id. -/
structure RawGame where
  id : Int
  action_history : String
  timer : Option String
deriving DecidableEq

/-- Modelled from the spec: serde_json::to_string and from_str for the action
history and the timer are external library serializers; they are abstracted as
fallible encode and decode functions. -/
structure Codec (A T : Type) where
  encActions : A → Option String
  decActions : String → Option A
  encTimer : T → Option String
  decTimer : String → Option T

/-- StoreAs::store for SyncronizedMatch (db/game.rs): serialize the timer,
parse the key as an i64 id, serialize the action history; any failure aborts
with an error. -/
def store {A T : Type} (c : Codec A T) (m : SyncronizedMatch A T) : Option RawGame :=
  match (match m.timer with
         | some t => (c.encTimer t).map some
         | none => some none) with
  | none => none
  | some timer =>
    match parseI64 m.key with
    | none => none
    | some id =>
      match c.encActions m.actions with
      | none => none
      | some hist => some ⟨id, hist, timer⟩

/-- StoreAs::load for SyncronizedMatch (db/game.rs): deserialize the timer and
the action history and format the id back into the key string. -/
def load {A T : Type} (c : Codec A T) (g : RawGame) : Option (SyncronizedMatch A T) :=
  match (match g.timer with
         | some sTimer => (c.decTimer sTimer).map some
         | none => some none) with
  | none => none
  | some timer =>
    match c.decActions g.action_history with
    | none => none
    | some actions => some ⟨formatI64 g.id, actions, timer⟩

/-- TestInstance (test module of instance_manager.rs): an i64 value with a
key, used here as the concrete instantiation for witnesses. -/
structure TestInstance where
  key : String
  value : Int
deriving DecidableEq

/-- TestClientMsg (test module of instance_manager.rs). -/
inductive TestClientMsg
  | set (key : String) (value : Int)
  | get (key : String)
deriving DecidableEq

/-- TestServerMsg (test module of instance_manager.rs). -/
inductive TestServerMsg
  | isNow (key : String) (value : Int)
  | oups (error : String)
deriving DecidableEq

/-- The trait implementations of the test module of instance_manager.rs,
bundled: Set stores the value and broadcasts it, Get replies with the value,
subscribe synthesizes a Get. -/
def testImpl : InstanceImpl TestInstance TestClientMsg TestServerMsg where
  newWithKey := fun key => ⟨key, 0⟩
  msgKey := fun m =>
    match m with
    | .set key _ => key
    | .get key => key
  subscribeMsg := fun key => .get key
  errorMsg := fun e => .oups e
  handleMessage := fun i m =>
    match m with
    | .set key value => ({ i with value := value }, ⟨[], [.isNow key value]⟩)
    | .get key => (i, ⟨[.isNow key i.value], []⟩)

/-! Helper lemmas about the association-list and set operations. -/

theorem alookup_aupdate_self {κ α : Type} [DecidableEq κ] (k : κ) (v : α) :
    ∀ l : List (κ × α), alookup k (aupdate k v l) = some v := by
  intro l
  induction l with
  | nil => simp [alookup, aupdate]
  | cons p rest ih =>
    by_cases h : p.1 = k
    · simp [alookup, aupdate, h]
    · simp [alookup, aupdate, h, ih]

theorem alookup_aupdate_ne {κ α : Type} [DecidableEq κ] {k k' : κ} (v : α)
    (hne : k' ≠ k) : ∀ l : List (κ × α), alookup k' (aupdate k v l) = alookup k' l := by
  intro l
  induction l with
  | nil => simp [alookup, aupdate, Ne.symm hne]
  | cons p rest ih =>
    by_cases h : p.1 = k
    · simp [alookup, aupdate, h, Ne.symm hne]
    · by_cases h2 : p.1 = k'
      · simp [alookup, aupdate, h, h2, hne]
      · simp [alookup, aupdate, h, h2, ih]

theorem aupdate_lookup_self {κ α : Type} [DecidableEq κ] {k : κ} {v : α} :
    ∀ {l : List (κ × α)}, alookup k l = some v → aupdate k v l = l := by
  intro l
  induction l with
  | nil => intro h; simp [alookup] at h
  | cons p rest ih =>
    intro h
    by_cases h2 : p.1 = k
    · simp [alookup, h2] at h
      subst h2
      simp [aupdate, ← h]
    · simp [alookup, h2] at h
      simp [aupdate, h2, ih h]

theorem mem_hsInsert {α : Type} [DecidableEq α] {x y : α} {l : List α} :
    y ∈ hsInsert x l ↔ y = x ∨ y ∈ l := by
  unfold hsInsert
  by_cases h : x ∈ l
  · simp only [h, if_true]
    constructor
    · intro hy; exact Or.inr hy
    · intro hy
      rcases hy with hy | hy
      · subst hy; exact h
      · exact hy
  · simp only [h, if_false, List.mem_append, List.mem_singleton]
    exact Or.comm

theorem hsInsert_mem {α : Type} [DecidableEq α] {x : α} {l : List α} (h : x ∈ l) :
    hsInsert x l = l := by
  simp [hsInsert, h]

theorem contains_key_aupdate {κ α : Type} [DecidableEq κ] {map : List (κ × α)} {k k2 : κ}
    (v : α) (h : contains_key map k = true) : contains_key (aupdate k2 v map) k = true := by
  by_cases h2 : k = k2
  · subst h2
    simp [contains_key, alookup_aupdate_self]
  · simpa [contains_key, alookup_aupdate_ne v h2] using h

/-! Helper lemmas about delivery traces. -/

theorem deliveriesTo_append {Sm : Type} (r : Sender) (a b : List (Sender × Sm)) :
    deliveriesTo r (a ++ b) = deliveriesTo r a ++ deliveriesTo r b := by
  induction a with
  | nil => simp [deliveriesTo]
  | cons p rest ih =>
    by_cases h : p.1 = r
    · simp [deliveriesTo, h, ih]
    · simp [deliveriesTo, h, ih]

theorem deliveriesTo_replies {Sm : Type} (r s : Sender) (ms : List Sm) :
    deliveriesTo r (ms.map fun x => (s, x)) = if s = r then ms else [] := by
  induction ms with
  | nil => simp [deliveriesTo]
  | cons m rest ih =>
    by_cases h : s = r
    · simp [deliveriesTo, h] at ih ⊢
      exact ih
    · simp [deliveriesTo, h] at ih ⊢
      exact ih

theorem deliveriesTo_broadcast_single {Sm : Type} (r : Sender) (x : Sm) {cl : List Sender}
    (h : cl.Nodup) :
    deliveriesTo r (cl.map fun c => (c, x)) = if r ∈ cl then [x] else [] := by
  induction cl with
  | nil => simp [deliveriesTo]
  | cons c rest ih =>
    rcases List.nodup_cons.mp h with ⟨hc, hrest⟩
    by_cases h2 : c = r
    · subst h2
      simp [deliveriesTo, hc, ih hrest]
    · have : (r ∈ c :: rest) ↔ (r ∈ rest) := by
        simp [List.mem_cons, Ne.symm h2]
      simp [deliveriesTo, h2, ih hrest, this]

theorem deliveriesTo_broadcasts {Sm : Type} (r : Sender) (ms : List Sm) {cl : List Sender}
    (h : cl.Nodup) :
    deliveriesTo r (ms.flatMap fun x => cl.map fun c => (c, x)) =
      if r ∈ cl then ms else [] := by
  induction ms with
  | nil => simp [deliveriesTo]
  | cons m rest ih =>
    rw [List.flatMap_cons, deliveriesTo_append, deliveriesTo_broadcast_single r m h, ih]
    by_cases h2 : r ∈ cl
    · simp [h2]
    · simp [h2]

/-! C1: unknown routing key. -/

/-- C1: for every client message whose routing key has no registry entry,
handle_message sends the sender exactly one error reply whose text contains
that key and leaves the manager state unchanged; subscribe against a
nonexistent key behaves the same. -/
theorem unknown_key_single_error_reply {I Cm Sm : Type} (impl : InstanceImpl I Cm Sm)
    (st : SyncManager I) (m : Cm) (key2 : String) (s : Sender)
    (h1 : alookup (impl.msgKey m) st.instances = none)
    (h2 : alookup key2 st.instances = none) :
    handle_message impl st m s =
      (st, [(s, impl.errorMsg (errorNoInstanceText (impl.msgKey m)))]) ∧
    subscribe impl st key2 s =
      (st, [(s, impl.errorMsg (errorNoInstanceText key2))]) ∧
    hasSubstring (errorNoInstanceText (impl.msgKey m)) (impl.msgKey m) ∧
    hasSubstring (errorNoInstanceText key2) key2 := by
  refine ⟨?_, ?_, ?_, ?_⟩
  · simp [handle_message, h1, error_no_instance]
  · simp [subscribe, h2, error_no_instance]
  · exact ⟨"There is no instance with key ", ".", rfl⟩
  · exact ⟨"There is no instance with key ", ".", rfl⟩

/-- Witness for C1 on the empty manager and the test instance types. -/
theorem unknown_key_single_error_reply_witness :
    handle_message testImpl SyncManager.new (TestClientMsg.get "Game1") 1 =
      (SyncManager.new, [(1, TestServerMsg.oups "There is no instance with key Game1.")]) ∧
    subscribe testImpl SyncManager.new "Game1" 1 =
      (SyncManager.new, [(1, TestServerMsg.oups "There is no instance with key Game1.")]) ∧
    hasSubstring (errorNoInstanceText (testImpl.msgKey (TestClientMsg.get "Game1")))
      (testImpl.msgKey (TestClientMsg.get "Game1")) ∧
    hasSubstring (errorNoInstanceText "Game1") "Game1" := by
  have h := unknown_key_single_error_reply testImpl SyncManager.new
    (TestClientMsg.get "Game1") "Game1" 1 rfl rfl
  refine ⟨?_, ?_, h.2.2.1, h.2.2.2⟩
  · rw [h.1]; rfl
  · rw [h.2.1]; rfl

/-! C2: queue draining and delivery order for routed messages. -/

/-- C2: routing a message to an existing instance produces exactly one drain
of the Context: first every queued reply, in enqueue order, addressed to the
original sender, then every queued broadcast, in enqueue order, fanned out to
every subscriber; consequently each recipient r receives the replies (when r
is the sender) followed by one copy of each broadcast (when r is subscribed),
in enqueue order. -/
theorem routed_message_delivery {I Cm Sm : Type} (impl : InstanceImpl I Cm Sm)
    (st : SyncManager I) (m : Cm) (s : Sender) (meta : InstanceMetadata I)
    (h : alookup (impl.msgKey m) st.instances = some meta)
    (hnd : meta.clients.Nodup) :
    (handle_message impl st m s).2 =
      ((impl.handleMessage meta.inst m).2.reply_queue.map fun x => (s, x)) ++
        ((impl.handleMessage meta.inst m).2.broadcast_queue.flatMap fun x =>
          meta.clients.map fun c => (c, x)) ∧
    ∀ r : Sender,
      deliveriesTo r (handle_message impl st m s).2 =
        (if s = r then (impl.handleMessage meta.inst m).2.reply_queue else []) ++
          (if r ∈ meta.clients then (impl.handleMessage meta.inst m).2.broadcast_queue
           else []) := by
  have htrace : (handle_message impl st m s).2 =
      ((impl.handleMessage meta.inst m).2.reply_queue.map fun x => (s, x)) ++
        ((impl.handleMessage meta.inst m).2.broadcast_queue.flatMap fun x =>
          meta.clients.map fun c => (c, x)) := by
    simp [handle_message, h, handle_message_for_instance]
  refine ⟨htrace, fun r => ?_⟩
  rw [htrace, deliveriesTo_append, deliveriesTo_replies,
    deliveriesTo_broadcasts r _ hnd]

/-- Witness for C2: a Set message on an instance with subscribers 1 and 2,
sent by sender 1, broadcasts to both and replies to nobody. -/
theorem routed_message_delivery_witness :
    deliveriesTo 2
        (handle_message testImpl
          ⟨[("1000", ⟨⟨"1000", 0⟩, [1, 2]⟩)], [(1, ⟨["1000"]⟩), (2, ⟨["1000"]⟩)]⟩
          (TestClientMsg.set "1000" 42) 1).2 =
      [TestServerMsg.isNow "1000" 42] := by
  have h := routed_message_delivery testImpl
    ⟨[("1000", ⟨⟨"1000", 0⟩, [1, 2]⟩)], [(1, ⟨["1000"]⟩), (2, ⟨["1000"]⟩)]⟩
    (TestClientMsg.set "1000" 42) 1 ⟨⟨"1000", 0⟩, [1, 2]⟩ rfl (by decide)
  rw [h.2 2]
  rfl

/-! C4: duplicate subscription is rejected without any state change. -/

/-- C4: when the sender's client-table entry already lists an existing key, a
further subscribe call sends that sender exactly one error reply saying it is
already connected to that key, and the manager state, hence the instance's
subscriber set, the sender's client-table entry and the instance state, is
unchanged. -/
theorem duplicate_subscribe_rejected {I Cm Sm : Type} (impl : InstanceImpl I Cm Sm)
    (st : SyncManager I) (key : String) (s : Sender) (meta : InstanceMetadata I)
    (cd : ClientData) (hinst : alookup key st.instances = some meta)
    (hcd : alookup s st.clients = some cd) (hmem : key ∈ cd.connected_to) :
    subscribe impl st key s = (st, [(s, impl.errorMsg (alreadyConnectedText key))]) ∧
    hasSubstring (alreadyConnectedText key) key := by
  constructor
  · have hcd2 : aupdate s (⟨hsInsert key cd.connected_to⟩ : ClientData) st.clients =
        st.clients := by
      rw [hsInsert_mem hmem]
      exact aupdate_lookup_self hcd
    simp [subscribe, hinst, hcd, hmem, hcd2]
  · exact ⟨"Client is already connected to ", ".", rfl⟩

/-- Witness for C4: sender 1 is already connected to key 1000; the second
subscribe is rejected with the documented error and an unchanged state. -/
theorem duplicate_subscribe_rejected_witness :
    subscribe testImpl ⟨[("1000", ⟨⟨"1000", 0⟩, [1]⟩)], [(1, ⟨["1000"]⟩)]⟩ "1000" 1 =
      (⟨[("1000", ⟨⟨"1000", 0⟩, [1]⟩)], [(1, ⟨["1000"]⟩)]⟩,
        [(1, TestServerMsg.oups "Client is already connected to 1000.")]) ∧
    hasSubstring (alreadyConnectedText "1000") "1000" := by
  have h := duplicate_subscribe_rejected testImpl
    ⟨[("1000", ⟨⟨"1000", 0⟩, [1]⟩)], [(1, ⟨["1000"]⟩)]⟩ "1000" 1
    ⟨⟨"1000", 0⟩, [1]⟩ ⟨["1000"]⟩ rfl rfl (by decide)
  refine ⟨?_, h.2⟩
  rw [h.1]
  rfl

/-! C5: a fresh subscription updates both tables and routes a synthesized
subscribe message. -/

/-- C5: for a sender not yet subscribed to an existing key, subscribe adds the
key to the sender's client-table entry (creating it for a new sender), adds
the sender to the instance's subscriber set, and produces exactly the
deliveries of routing the synthesized subscribe client message to the updated
instance entry. -/
theorem fresh_subscribe_adds_and_routes {I Cm Sm : Type} (impl : InstanceImpl I Cm Sm)
    (st : SyncManager I) (key : String) (s : Sender) (meta : InstanceMetadata I)
    (hinst : alookup key st.instances = some meta)
    (hfresh : key ∉ connectedTo st s) :
    subscribe impl st key s =
      (⟨aupdate key
          (handle_message_for_instance impl (impl.subscribeMsg key) s
            { meta with clients := hsInsert s meta.clients }).1 st.instances,
        aupdate s ⟨hsInsert key (connectedTo st s)⟩ st.clients⟩,
       (handle_message_for_instance impl (impl.subscribeMsg key) s
          { meta with clients := hsInsert s meta.clients }).2) ∧
    connectedTo (subscribe impl st key s).1 s = hsInsert key (connectedTo st s) ∧
    subscribers (subscribe impl st key s).1 key = hsInsert s (subscribers st key) := by
  have hmain : subscribe impl st key s =
      (⟨aupdate key
          (handle_message_for_instance impl (impl.subscribeMsg key) s
            { meta with clients := hsInsert s meta.clients }).1 st.instances,
        aupdate s ⟨hsInsert key (connectedTo st s)⟩ st.clients⟩,
       (handle_message_for_instance impl (impl.subscribeMsg key) s
          { meta with clients := hsInsert s meta.clients }).2) := by
    cases hcd : alookup s st.clients with
    | some cd =>
      have hk : key ∉ cd.connected_to := by simpa [connectedTo, hcd] using hfresh
      simp [subscribe, hinst, hcd, hk, connectedTo]
    | none => simp [subscribe, hinst, hcd, connectedTo]
  refine ⟨hmain, ?_, ?_⟩
  · rw [hmain]
    simp [connectedTo, alookup_aupdate_self]
  · rw [hmain]
    simp [subscribers, alookup_aupdate_self, handle_message_for_instance, hinst]

/-- Witness for C5: sender 1 subscribes to key 1000 whose instance holds
value 7 and already has subscriber 2; sender 1 is added to both tables and
receives the instance's own subscribe reply, the current value. -/
theorem fresh_subscribe_adds_and_routes_witness :
    subscribers
        (subscribe testImpl
          ⟨[("1000", ⟨⟨"1000", 7⟩, [2]⟩)], [(2, ⟨["1000"]⟩)]⟩ "1000" 1).1 "1000" = [2, 1] ∧
    connectedTo
        (subscribe testImpl
          ⟨[("1000", ⟨⟨"1000", 7⟩, [2]⟩)], [(2, ⟨["1000"]⟩)]⟩ "1000" 1).1 1 = ["1000"] ∧
    (subscribe testImpl
        ⟨[("1000", ⟨⟨"1000", 7⟩, [2]⟩)], [(2, ⟨["1000"]⟩)]⟩ "1000" 1).2 =
      [(1, TestServerMsg.isNow "1000" 7)] := by
  have h := fresh_subscribe_adds_and_routes testImpl
    ⟨[("1000", ⟨⟨"1000", 7⟩, [2]⟩)], [(2, ⟨["1000"]⟩)]⟩ "1000" 1
    ⟨⟨"1000", 7⟩, [2]⟩ rfl (by decide)
  refine ⟨?_, ?_, ?_⟩
  · rw [h.2.2]; rfl
  · rw [h.2.1]; rfl
  · rw [h.1]; rfl

/-! C3: the subscriber sets and the client table stay in sync on every
reachable state. -/

theorem generate_unique_key_not_contains {α : Type} {map : List (String × α)} :
    ∀ {tape : List Nat} {s : String}, generate_unique_key map tape = some s →
      contains_key map s = false := by
  intro tape
  induction tape with
  | nil => intro s h; simp [generate_unique_key] at h
  | cons r rs ih =>
    intro s h
    rw [generate_unique_key] at h
    by_cases hc : contains_key map (generate_key r) = true
    · simp [hc] at h
      exact ih h
    · simp [Bool.not_eq_true] at hc
      simp [hc] at h
      rw [← h]
      exact hc

theorem subscribers_lookup_some {I : Type} {st : SyncManager I} {key : String}
    {meta : InstanceMetadata I} (h : alookup key st.instances = some meta) :
    subscribers st key = meta.clients := by
  simp [subscribers, h]

theorem subscribers_lookup_none {I : Type} {st : SyncManager I} {key : String}
    (h : alookup key st.instances = none) : subscribers st key = [] := by
  simp [subscribers, h]

theorem connectedTo_lookup_some {I : Type} {st : SyncManager I} {s : Sender}
    {cd : ClientData} (h : alookup s st.clients = some cd) :
    connectedTo st s = cd.connected_to := by
  simp [connectedTo, h]

theorem connectedTo_lookup_none {I : Type} {st : SyncManager I} {s : Sender}
    (h : alookup s st.clients = none) : connectedTo st s = [] := by
  simp [connectedTo, h]

theorem subInvariant_new {I Cm Sm : Type} (impl : InstanceImpl I Cm Sm)
    {st st2 : SyncManager I} {tape : List Nat} {key : String}
    (hinv : SubInvariant st) (h : new_instance impl st tape = some (st2, key)) :
    SubInvariant st2 := by
  cases hg : generate_unique_key st.instances tape with
  | none => rw [new_instance, hg] at h; simp at h
  | some k =>
    rw [new_instance, hg] at h
    simp only [Option.some.injEq, Prod.mk.injEq] at h
    obtain ⟨hst2, -⟩ := h
    subst hst2
    have hfree : alookup k st.instances = none := by
      have h2 := generate_unique_key_not_contains hg
      cases hal : alookup k st.instances with
      | none => rfl
      | some v => rw [contains_key, hal] at h2; simp at h2
    intro key' s'
    by_cases hk : key' = k
    · subst hk
      have h1 : subscribers { st with instances := aupdate key' (⟨impl.newWithKey key', []⟩ : InstanceMetadata I) st.instances } key' = ([] : List Sender) :=
        subscribers_lookup_some (alookup_aupdate_self key' _ st.instances)
      rw [h1]
      have h2 := hinv key' s'
      rw [subscribers_lookup_none hfree] at h2
      exact h2
    · have h1 : subscribers { st with instances := aupdate k (⟨impl.newWithKey k, []⟩ : InstanceMetadata I) st.instances } key' = subscribers st key' := by
        simp [subscribers, alookup_aupdate_ne _ hk]
      rw [h1]
      exact hinv key' s'

theorem subInvariant_handle {I Cm Sm : Type} (impl : InstanceImpl I Cm Sm)
    (m : Cm) (s : Sender) {st : SyncManager I} (hinv : SubInvariant st) :
    SubInvariant (handle_message impl st m s).1 := by
  cases hl : alookup (impl.msgKey m) st.instances with
  | none => simpa [handle_message, hl] using hinv
  | some meta =>
    have hstate : (handle_message impl st m s).1 = { st with instances := aupdate (impl.msgKey m) ({ meta with inst := (impl.handleMessage meta.inst m).1 }) st.instances } := by
      simp [handle_message, hl, handle_message_for_instance]
    rw [hstate]
    intro key' s'
    by_cases hk : key' = impl.msgKey m
    · rw [hk]
      have h1 : subscribers { st with instances := aupdate (impl.msgKey m) ({ meta with inst := (impl.handleMessage meta.inst m).1 }) st.instances } (impl.msgKey m) = meta.clients := by
        simp [subscribers, alookup_aupdate_self]
      rw [h1]
      have h2 := hinv (impl.msgKey m) s'
      rw [subscribers_lookup_some hl] at h2
      exact h2
    · have h1 : subscribers { st with instances := aupdate (impl.msgKey m) ({ meta with inst := (impl.handleMessage meta.inst m).1 }) st.instances } key' = subscribers st key' := by
        simp [subscribers, alookup_aupdate_ne _ hk]
      rw [h1]
      exact hinv key' s'

theorem subInvariant_subscribe {I Cm Sm : Type} (impl : InstanceImpl I Cm Sm)
    (key : String) (s : Sender) {st : SyncManager I} (hinv : SubInvariant st) :
    SubInvariant (subscribe impl st key s).1 := by
  cases hl : alookup key st.instances with
  | none => simpa [subscribe, hl] using hinv
  | some meta =>
    cases hcd : alookup s st.clients with
    | some cd =>
      by_cases hk : key ∈ cd.connected_to
      · have hfix : (subscribe impl st key s).1 = st := by
          have h2 : aupdate s (⟨hsInsert key cd.connected_to⟩ : ClientData) st.clients =
              st.clients := by
            rw [hsInsert_mem hk]
            exact aupdate_lookup_self hcd
          simp [subscribe, hl, hcd, hk, h2]
        rw [hfix]
        exact hinv
      · have hstate : (subscribe impl st key s).1 =
            ⟨aupdate key
                { meta with
                  inst := (impl.handleMessage meta.inst (impl.subscribeMsg key)).1,
                  clients := hsInsert s meta.clients } st.instances,
              aupdate s ⟨hsInsert key cd.connected_to⟩ st.clients⟩ := by
          simp [subscribe, hl, hcd, hk, handle_message_for_instance]
        have hsub : ∀ key', subscribers (subscribe impl st key s).1 key' =
            if key' = key then hsInsert s meta.clients else subscribers st key' := by
          intro key'
          rw [hstate]
          by_cases hky : key' = key
          · subst hky
            simp [subscribers, alookup_aupdate_self]
          · simp [subscribers, alookup_aupdate_ne _ hky, hky]
        have hcon : ∀ s', connectedTo (subscribe impl st key s).1 s' =
            if s' = s then hsInsert key cd.connected_to else connectedTo st s' := by
          intro s'
          rw [hstate]
          by_cases hx : s' = s
          · subst hx
            simp [connectedTo, alookup_aupdate_self]
          · simp [connectedTo, alookup_aupdate_ne _ hx, hx]
        intro key' s'
        rw [hsub key', hcon s']
        have hbase := hinv key' s'
        by_cases hky : key' = key
        · subst hky
          by_cases hx : s' = s
          · subst hx
            simp [mem_hsInsert]
          · rw [if_pos rfl, if_neg hx, mem_hsInsert]
            rw [subscribers_lookup_some hl] at hbase
            simp [hx, hbase]
        · by_cases hx : s' = s
          · subst hx
            rw [if_neg hky, if_pos rfl, mem_hsInsert]
            rw [connectedTo_lookup_some hcd] at hbase
            simp [hky, hbase]
          · rw [if_neg hky, if_neg hx]
            exact hbase
    | none =>
      have hstate : (subscribe impl st key s).1 =
          ⟨aupdate key
              { meta with
                inst := (impl.handleMessage meta.inst (impl.subscribeMsg key)).1,
                clients := hsInsert s meta.clients } st.instances,
            aupdate s ⟨hsInsert key []⟩ st.clients⟩ := by
        simp [subscribe, hl, hcd, handle_message_for_instance]
      have hsub : ∀ key', subscribers (subscribe impl st key s).1 key' =
          if key' = key then hsInsert s meta.clients else subscribers st key' := by
        intro key'
        rw [hstate]
        by_cases hky : key' = key
        · subst hky
          simp [subscribers, alookup_aupdate_self]
        · simp [subscribers, alookup_aupdate_ne _ hky, hky]
      have hcon : ∀ s', connectedTo (subscribe impl st key s).1 s' =
          if s' = s then hsInsert key [] else connectedTo st s' := by
        intro s'
        rw [hstate]
        by_cases hx : s' = s
        · subst hx
          simp [connectedTo, alookup_aupdate_self]
        · simp [connectedTo, alookup_aupdate_ne _ hx, hx]
      intro key' s'
      rw [hsub key', hcon s']
      have hbase := hinv key' s'
      by_cases hky : key' = key
      · subst hky
        by_cases hx : s' = s
        · subst hx
          simp [mem_hsInsert]
        · rw [if_pos rfl, if_neg hx, mem_hsInsert]
          rw [subscribers_lookup_some hl] at hbase
          simp [hx, hbase]
      · by_cases hx : s' = s
        · subst hx
          rw [if_neg hky, if_pos rfl, mem_hsInsert]
          rw [connectedTo_lookup_none hcd] at hbase
          simp [hky, hbase]
        · rw [if_neg hky, if_neg hx]
          exact hbase

/-- C3: in every manager state reachable from the empty manager by
new_instance, handle_message and subscribe calls, a sender is in an instance's
subscriber set exactly when the instance's key is in the sender's client-table
entry. -/
theorem subscriber_client_table_invariant {I Cm Sm : Type} (impl : InstanceImpl I Cm Sm)
    {st : SyncManager I} (h : Reachable impl st) :
    ∀ key s, s ∈ subscribers st key ↔ key ∈ connectedTo st s := by
  induction h with
  | empty => intro key s; simp [subscribers, connectedTo, SyncManager.new, alookup]
  | newi hr hnew ih => exact subInvariant_new _ ih hnew
  | msg m s hr ih => exact subInvariant_handle _ m s ih
  | sub key s hr ih => exact subInvariant_subscribe _ key s ih

/-- Witness for C3: a state reached by creating an instance and subscribing
sender 1 to it satisfies the invariant at that key and sender. -/
theorem subscriber_client_table_invariant_witness :
    1 ∈ subscribers
        (subscribe testImpl
          (⟨[("1000", ⟨⟨"1000", 0⟩, []⟩)], []⟩ : SyncManager TestInstance) "1000" 1).1
        "1000" ↔
      "1000" ∈ connectedTo
        (subscribe testImpl
          (⟨[("1000", ⟨⟨"1000", 0⟩, []⟩)], []⟩ : SyncManager TestInstance) "1000" 1).1 1 := by
  have hnew : new_instance testImpl SyncManager.new [0] =
      some (⟨[("1000", ⟨⟨"1000", 0⟩, []⟩)], []⟩, "1000") := by rfl
  exact subscriber_client_table_invariant testImpl
    (Reachable.sub "1000" 1 (Reachable.newi Reachable.empty hnew)) "1000" 1

/-! Arithmetic facts about the decimal digit functions. -/

theorem ofDigitsRev_digitsRevAux : ∀ fuel n, n ≤ fuel → ofDigitsRev (digitsRevAux fuel n) = n := by
  intro fuel
  induction fuel with
  | zero =>
    intro n hn
    have h0 : n = 0 := Nat.le_zero.mp hn
    subst h0
    rfl
  | succ fuel ih =>
    intro n hn
    cases n with
    | zero => rfl
    | succ m =>
      have hle : (m + 1) / 10 ≤ fuel := by
        have hlt : (m + 1) / 10 < m + 1 := Nat.div_lt_self (Nat.succ_pos m) (by norm_num)
        omega
      have hrec := ih _ hle
      show (m + 1) % 10 + 10 * ofDigitsRev (digitsRevAux fuel ((m + 1) / 10)) = m + 1
      rw [hrec]
      omega

theorem ofDigitsRev_digitsRev (n : Nat) : ofDigitsRev (digitsRev n) = n :=
  ofDigitsRev_digitsRevAux n n (Nat.le_refl n)

theorem digitsRevAux_lt : ∀ fuel n, ∀ d ∈ digitsRevAux fuel n, d < 10 := by
  intro fuel
  induction fuel with
  | zero =>
    intro n d hd
    cases n <;> simp [digitsRevAux] at hd
  | succ fuel ih =>
    intro n d hd
    cases n with
    | zero => simp [digitsRevAux] at hd
    | succ m =>
      rw [digitsRevAux] at hd
      rcases List.mem_cons.mp hd with h | h
      · rw [h]
        exact Nat.mod_lt _ (by norm_num)
      · exact ih _ d h

theorem digitsRevAux_length_le : ∀ fuel n k, n ≤ fuel → n < 10 ^ k →
    (digitsRevAux fuel n).length ≤ k := by
  intro fuel
  induction fuel with
  | zero =>
    intro n k hn _
    have h0 : n = 0 := Nat.le_zero.mp hn
    subst h0
    simp [digitsRevAux]
  | succ fuel ih =>
    intro n k hn hk
    cases n with
    | zero => simp [digitsRevAux]
    | succ m =>
      cases k with
      | zero => simp [pow_zero] at hk
      | succ k =>
        rw [digitsRevAux]
        simp only [List.length_cons]
        have hle : (m + 1) / 10 ≤ fuel := by
          have hlt : (m + 1) / 10 < m + 1 := Nat.div_lt_self (Nat.succ_pos m) (by norm_num)
          omega
        have hdiv : (m + 1) / 10 < 10 ^ k := by
          have h10 : m + 1 < 10 ^ k * 10 := by
            rw [pow_succ] at hk
            exact hk
          exact (Nat.div_lt_iff_lt_mul (by norm_num)).mpr h10
        have := ih _ k hle hdiv
        omega

theorem digitsRevAux_length_gt : ∀ fuel n k, n ≤ fuel → 10 ^ k ≤ n →
    k < (digitsRevAux fuel n).length := by
  intro fuel
  induction fuel with
  | zero =>
    intro n k hn hk
    have h0 : n = 0 := Nat.le_zero.mp hn
    subst h0
    exfalso
    have := pow_pos (show 0 < 10 by norm_num) k
    omega
  | succ fuel ih =>
    intro n k hn hk
    cases n with
    | zero =>
      exfalso
      have := pow_pos (show 0 < 10 by norm_num) k
      omega
    | succ m =>
      cases k with
      | zero =>
        rw [digitsRevAux]
        simp
      | succ k =>
        rw [digitsRevAux]
        simp only [List.length_cons]
        have hle : (m + 1) / 10 ≤ fuel := by
          have hlt : (m + 1) / 10 < m + 1 := Nat.div_lt_self (Nat.succ_pos m) (by norm_num)
          omega
        have hdivge : 10 ^ k ≤ (m + 1) / 10 := by
          rw [pow_succ] at hk
          exact (Nat.le_div_iff_mul_le (by norm_num)).mpr hk
        have := ih _ k hle hdivge
        omega

theorem digitsRev_ne_nil {n : Nat} (h0 : n ≠ 0) : digitsRev n ≠ [] := by
  unfold digitsRev
  cases n with
  | zero => exact absurd rfl h0
  | succ m =>
    rw [digitsRevAux]
    exact List.cons_ne_nil _ _

theorem formatNat_length_four {n : Nat} (h1 : 1000 ≤ n) (h2 : n ≤ 9999) :
    (formatNat n).length = 4 := by
  have h0 : n ≠ 0 := by omega
  rw [formatNat, if_neg h0, List.length_reverse, List.length_map]
  have hle : (digitsRev n).length ≤ 4 :=
    digitsRevAux_length_le n n 4 (Nat.le_refl n) (by norm_num; omega)
  have hgt : 3 < (digitsRev n).length :=
    digitsRevAux_length_gt n n 3 (Nat.le_refl n) (by norm_num; omega)
  omega

/-! C6: key uniqueness and key format. -/

theorem contains_key_run_fresh {I Cm Sm : Type} (impl : InstanceImpl I Cm Sm) :
    ∀ (tapes : List (List Nat)) (st : SyncManager I) (k : String),
      contains_key st.instances k = true → k ∉ run_new_instances impl st tapes := by
  intro tapes
  induction tapes with
  | nil => intro st k _ h; simp [run_new_instances] at h
  | cons tape tapes ih =>
    intro st k hk
    rw [run_new_instances]
    cases hn : new_instance impl st tape with
    | none => simp
    | some r =>
      simp only [List.mem_cons, not_or]
      constructor
      · intro hkey
        cases hg : generate_unique_key st.instances tape with
        | none => rw [new_instance, hg] at hn; simp at hn
        | some k2 =>
          rw [new_instance, hg] at hn
          simp only [Option.some.injEq] at hn
          have hk2 : r.2 = k2 := by rw [← hn]
          have hfresh := generate_unique_key_not_contains hg
          rw [hkey, hk2] at hk
          rw [hk] at hfresh
          exact absurd hfresh (by simp)
      · apply ih
        cases hg : generate_unique_key st.instances tape with
        | none => rw [new_instance, hg] at hn; simp at hn
        | some k2 =>
          rw [new_instance, hg] at hn
          simp only [Option.some.injEq] at hn
          have hr1 : r.1 = { st with instances := aupdate k2 (⟨impl.newWithKey k2, []⟩ : InstanceMetadata I) st.instances } := by
            rw [← hn]
          rw [hr1]
          exact contains_key_aupdate _ hk

/-- C6: every key generate_unique_key returns is absent from the given map and
is the four-character decimal string of a number between 1000 and 9999, and
every run of successive new_instance calls returns pairwise distinct keys. -/
theorem new_instance_keys_distinct_and_in_range {I Cm Sm : Type}
    (impl : InstanceImpl I Cm Sm) :
    (∀ (map : List (String × InstanceMetadata I)) (tape : List Nat) (s : String),
      generate_unique_key map tape = some s →
        contains_key map s = false ∧
        ∃ n, 1000 ≤ n ∧ n ≤ 9999 ∧ s = formatNatStr n ∧ s.length = 4) ∧
    ∀ (st : SyncManager I) (tapes : List (List Nat)),
      (run_new_instances impl st tapes).Nodup := by
  constructor
  · intro map tape s hgen
    refine ⟨generate_unique_key_not_contains hgen, ?_⟩
    have hval : ∀ t, generate_unique_key map t = some s → ∃ r, s = generate_key r := by
      intro t
      induction t with
      | nil => intro h; simp [generate_unique_key] at h
      | cons r rs ih =>
        intro h
        rw [generate_unique_key] at h
        by_cases hc : contains_key map (generate_key r) = true
        · simp [hc] at h
          exact ih h
        · simp [Bool.not_eq_true] at hc
          simp [hc] at h
          exact ⟨r, h.symm⟩
    obtain ⟨r, hr⟩ := hval tape hgen
    refine ⟨r % 9000 + 1000, by omega, ?_, ?_, ?_⟩
    · have := Nat.mod_lt r (show 0 < 9000 by norm_num)
      omega
    · rw [hr]; rfl
    · rw [hr]
      show (formatNat (r % 9000 + 1000)).length = 4
      have := Nat.mod_lt r (show 0 < 9000 by norm_num)
      exact formatNat_length_four (by omega) (by omega)
  · intro st tapes
    induction tapes generalizing st with
    | nil => simp [run_new_instances]
    | cons tape tapes ih =>
      rw [run_new_instances]
      cases hn : new_instance impl st tape with
      | none => simp
      | some r =>
        rw [List.nodup_cons]
        refine ⟨?_, ih r.1⟩
        cases hg : generate_unique_key st.instances tape with
        | none => rw [new_instance, hg] at hn; simp at hn
        | some k2 =>
          rw [new_instance, hg] at hn
          simp only [Option.some.injEq] at hn
          have hr1 : r.1 = { st with instances := aupdate k2 (⟨impl.newWithKey k2, []⟩ : InstanceMetadata I) st.instances } := by
            rw [← hn]
          have hr2 : r.2 = k2 := by rw [← hn]
          apply contains_key_run_fresh impl tapes r.1 r.2
          rw [hr1, hr2]
          simp [contains_key, alookup_aupdate_self]

/-- Witness for C6: on the empty registry, the draw 0 yields key 1000, which
is fresh, four characters long and the decimal string of 1000; applying the
distinctness half to a two-call run is covered by the same theorem. -/
theorem new_instance_keys_distinct_and_in_range_witness :
    contains_key ([] : List (String × InstanceMetadata TestInstance)) "1000" = false ∧
    ∃ n, 1000 ≤ n ∧ n ≤ 9999 ∧ "1000" = formatNatStr n ∧ "1000".length = 4 :=
  (new_instance_keys_distinct_and_in_range testImpl).1 [] [0] "1000" rfl

/-! C8: termination behavior of the key generator. -/

/-- C8: when the map already holds every key 1000 to 9999 the generator
returns none on every tape, i.e. the retry loop never terminates; when some
key n in the range is free, every tape that eventually draws n terminates
with a free key. -/
theorem generate_unique_key_termination {α : Type} (map : List (String × α)) :
    ((∀ n, 1000 ≤ n → n ≤ 9999 → contains_key map (formatNatStr n) = true) →
      ∀ tape, generate_unique_key map tape = none) ∧
    ∀ n, 1000 ≤ n → n ≤ 9999 → contains_key map (formatNatStr n) = false →
      ∀ tape, ∃ s, generate_unique_key map (tape ++ [n - 1000]) = some s ∧
        contains_key map s = false := by
  constructor
  · intro hfull tape
    induction tape with
    | nil => rfl
    | cons r rs ih =>
      have hc : contains_key map (generate_key r) = true := by
        have := Nat.mod_lt r (show 0 < 9000 by norm_num)
        exact hfull (r % 9000 + 1000) (by omega) (by omega)
      rw [generate_unique_key]
      simp only [hc, if_true]
      exact ih
  · intro n h1 h2 hfree tape
    have hgen : generate_key (n - 1000) = formatNatStr n := by
      rw [generate_key]
      have : (n - 1000) % 9000 = n - 1000 := Nat.mod_eq_of_lt (by omega)
      rw [this]
      congr 1
      omega
    induction tape with
    | nil =>
      refine ⟨formatNatStr n, ?_, hfree⟩
      rw [List.nil_append, generate_unique_key, hgen]
      simp [hfree]
    | cons r rs ih =>
      rw [List.cons_append, generate_unique_key]
      by_cases hc : contains_key map (generate_key r) = true
      · simpa [hc] using ih
      · simp only [Bool.not_eq_true] at hc
        exact ⟨generate_key r, by simp [hc], hc⟩

/-- Witness for C8: on the empty map the key 1000 is free and the extended
empty tape terminates with a free key. -/
theorem generate_unique_key_termination_witness :
    ∃ s, generate_unique_key ([] : List (String × Unit)) ([] ++ [0]) = some s ∧
      contains_key ([] : List (String × Unit)) s = false :=
  (generate_unique_key_termination ([] : List (String × Unit))).2 1000
    (by norm_num) (by norm_num) rfl []

/-! C7: error propagation at the manager boundary. -/

theorem sendResults_ok {Sm : Type} (sendOk : Sender → Bool) (h : ∀ r, sendOk r = true) :
    ∀ tr : List (Sender × Sm), sendResults sendOk tr = Except.ok () := by
  intro tr
  induction tr with
  | nil => rfl
  | cons p rest ih =>
    rw [sendResults, send_message, h p.1]
    simpa using ih

/-- C7 counterexample: the claim that handle_message and subscribe complete
normally for every input fails when the transport rejects a send; the code
then reaches the todo! panic inside send_message instead of completing. -/
theorem send_failure_panics_counterexample :
    sendResults (fun _ => false) (subscribe testImpl SyncManager.new "1000" 0).2 =
      Except.error "not yet implemented: handle ws send errors" := rfl

/-- C7 amended: whenever the transport accepts every send, handle_message and
subscribe complete normally on every input, so business-level failures such as
unknown keys and duplicate subscriptions are surfaced only as reply messages
in the delivery trace, never as an error to the caller. -/
theorem no_error_to_caller_when_sends_succeed {I Cm Sm : Type}
    (impl : InstanceImpl I Cm Sm) (st : SyncManager I) (m : Cm) (key : String)
    (s : Sender) (sendOk : Sender → Bool) (hok : ∀ r, sendOk r = true) :
    sendResults sendOk (handle_message impl st m s).2 = Except.ok () ∧
    sendResults sendOk (subscribe impl st key s).2 = Except.ok () :=
  ⟨sendResults_ok sendOk hok _, sendResults_ok sendOk hok _⟩

/-- Witness for the amended C7 on concrete inputs with an accepting
transport. -/
theorem no_error_to_caller_when_sends_succeed_witness :
    sendResults (fun _ => true)
        (handle_message testImpl SyncManager.new (TestClientMsg.get "7") 0).2 =
      Except.ok () ∧
    sendResults (fun _ => true) (subscribe testImpl SyncManager.new "7" 0).2 =
      Except.ok () :=
  no_error_to_caller_when_sends_succeed testImpl SyncManager.new
    (TestClientMsg.get "7") "7" 0 (fun _ => true) (fun _ => rfl)

/-! C9: behavior of Timer::use_time. -/

/-- C9 counterexample: after black has timed out, use_time called for white
returns Timeout Black, which is none of Paused, Running and Timeout White, so
the returned state is not always in the claimed three-element set for the
given player. The timer below is reached by start at 0, then a black action
at 500 that overdraws black's 240 budget. -/
theorem use_time_other_player_timeout_counterexample :
    (use_time
        (use_time ((timerFromConfig ⟨300, 240⟩ 0).start 0) PlayerColor.Black 500).1
        PlayerColor.White 501).2 ≠ TimerState.Paused ∧
    (use_time
        (use_time ((timerFromConfig ⟨300, 240⟩ 0).start 0) PlayerColor.Black 500).1
        PlayerColor.White 501).2 ≠ TimerState.Running ∧
    (use_time
        (use_time ((timerFromConfig ⟨300, 240⟩ 0).start 0) PlayerColor.Black 500).1
        PlayerColor.White 501).2 ≠ TimerState.Timeout PlayerColor.White := by
  refine ⟨?_, ?_, ?_⟩ <;> decide

/-- C9 amended: use_time always returns a state that is Paused, Running or a
timeout of some player (not necessarily the given one); on a timer that is
not Running it returns the current state and leaves the timer unchanged; on a
Running timer it subtracts now minus last_timestamp from the given player's
remaining time, sets last_timestamp to now, leaves the other player's
remaining time and the config unchanged, and returns Timeout of that player
exactly when the new remaining time is at most zero, else Running, storing
the returned state in the timer. -/
theorem use_time_spec (t : Timer) (p : PlayerColor) (now : Int) :
    ((use_time t p now).2 = TimerState.Paused ∨
      (use_time t p now).2 = TimerState.Running ∨
      ∃ q, (use_time t p now).2 = TimerState.Timeout q) ∧
    (t.timer_state ≠ TimerState.Running → use_time t p now = (t, t.timer_state)) ∧
    (t.timer_state = TimerState.Running →
      (use_time t p now).1.last_timestamp = now ∧
      (use_time t p now).1.time_left p = t.time_left p - (now - t.last_timestamp) ∧
      (use_time t p now).1.time_left p.other = t.time_left p.other ∧
      (use_time t p now).1.config = t.config ∧
      (use_time t p now).2 =
        (if t.time_left p - (now - t.last_timestamp) ≤ 0 then TimerState.Timeout p
         else TimerState.Running) ∧
      (use_time t p now).1.timer_state = (use_time t p now).2) := by
  refine ⟨?_, ?_, ?_⟩
  · cases h : (use_time t p now).2 with
    | Paused => exact Or.inl rfl
    | Running => exact Or.inr (Or.inl rfl)
    | Timeout q => exact Or.inr (Or.inr ⟨q, rfl⟩)
  · intro h
    rw [use_time.eq_def, if_pos h]
  · intro h
    cases p with
    | White =>
      by_cases hto : t.time_left_white - (now - t.last_timestamp) ≤ 0
      · simp [use_time, h, hto, Timer.time_left, PlayerColor.other]
      · simp [use_time, h, hto, Timer.time_left, PlayerColor.other]
    | Black =>
      by_cases hto : t.time_left_black - (now - t.last_timestamp) ≤ 0
      · simp [use_time, h, hto, Timer.time_left, PlayerColor.other]
      · simp [use_time, h, hto, Timer.time_left, PlayerColor.other]

/-- Witness for the amended C9: a running timer with 300 units for white,
used by white at time 15, keeps running with 285 units left. -/
theorem use_time_spec_witness :
    (use_time ⟨0, 300, 240, TimerState.Running, ⟨300, 240⟩⟩ PlayerColor.White 15).1.time_left
        PlayerColor.White = 285 ∧
    (use_time ⟨0, 300, 240, TimerState.Running, ⟨300, 240⟩⟩ PlayerColor.White 15).2 =
      TimerState.Running := by
  have h := (use_time_spec ⟨0, 300, 240, TimerState.Running, ⟨300, 240⟩⟩
    PlayerColor.White 15).2.2 rfl
  constructor
  · rw [h.2.1]
    decide
  · rw [h.2.2.2.2.1]
    decide

/-! Round trip between decimal formatting and integer parsing, needed for the
storage claim. -/

theorem charDigit_digitChar : ∀ d, d < 10 → charDigit (digitChar d) = some d := by
  decide

theorem digitChar_ne_sign (d : Nat) : digitChar d ≠ '-' ∧ digitChar d ≠ '+' := by
  unfold digitChar
  split <;> exact ⟨by decide, by decide⟩

theorem parseDigitsAux_map : ∀ (ds : List Nat) (acc : Nat), (∀ d ∈ ds, d < 10) →
    parseDigitsAux acc (ds.map digitChar) =
      some (ds.foldl (fun a d => 10 * a + d) acc) := by
  intro ds
  induction ds with
  | nil => intro acc _; rfl
  | cons d rest ih =>
    intro acc hd
    have hd10 : d < 10 := hd d (List.mem_cons_self d rest)
    rw [List.map_cons, parseDigitsAux, charDigit_digitChar d hd10]
    exact ih _ (fun x hx => hd x (List.mem_cons_of_mem d hx))

theorem foldl_reverse_ofDigitsRev : ∀ (ds : List Nat) (acc : Nat),
    (ds.reverse).foldl (fun a d => 10 * a + d) acc =
      acc * 10 ^ ds.length + ofDigitsRev ds := by
  intro ds
  induction ds with
  | nil => intro acc; simp [ofDigitsRev]
  | cons d rest ih =>
    intro acc
    rw [List.reverse_cons, List.foldl_append, ih]
    simp only [List.foldl, ofDigitsRev, List.length_cons]
    rw [pow_succ]
    ring

theorem parseNatChars_formatNat (n : Nat) : parseNatChars (formatNat n) = some n := by
  by_cases h0 : n = 0
  · subst h0
    rfl
  · have hne : digitsRev n ≠ [] := digitsRev_ne_nil h0
    have hlt10 : ∀ d ∈ (digitsRev n).reverse, d < 10 :=
      fun d hd => digitsRevAux_lt n n d (List.mem_reverse.mp hd)
    rw [formatNat, if_neg h0]
    obtain ⟨c, cs, hcs⟩ : ∃ c cs, ((digitsRev n).map digitChar).reverse = c :: cs := by
      cases hx : ((digitsRev n).map digitChar).reverse with
      | nil =>
        exfalso
        rw [List.reverse_eq_nil_iff] at hx
        exact hne (List.map_eq_nil_iff.mp hx)
      | cons c cs => exact ⟨c, cs, rfl⟩
    rw [hcs]
    show parseDigitsAux 0 (c :: cs) = some n
    rw [← hcs, ← List.map_reverse, parseDigitsAux_map _ 0 hlt10,
      foldl_reverse_ofDigitsRev, ofDigitsRev_digitsRev]
    simp

theorem formatNat_head {n : Nat} {c : Char} {cs : List Char}
    (hc : formatNat n = c :: cs) : c ≠ '-' ∧ c ≠ '+' := by
  have hmem : c ∈ formatNat n := by
    rw [hc]
    exact List.mem_cons_self c cs
  by_cases h0 : n = 0
  · subst h0
    simp [formatNat] at hmem
    rw [hmem]
    exact ⟨by decide, by decide⟩
  · rw [formatNat, if_neg h0, List.mem_reverse] at hmem
    obtain ⟨d, -, hd⟩ := List.mem_map.mp hmem
    rw [← hd]
    exact digitChar_ne_sign d

theorem formatNat_ne_nil (n : Nat) : formatNat n ≠ [] := by
  by_cases h0 : n = 0
  · subst h0
    simp [formatNat]
  · rw [formatNat, if_neg h0]
    simp only [ne_eq, List.reverse_eq_nil_iff, List.map_eq_nil_iff]
    exact digitsRev_ne_nil h0

theorem parseI64_formatI64 (i : Int) (hmin : -(2 ^ 63) ≤ i) (hmax : i ≤ 2 ^ 63 - 1) :
    parseI64 (formatI64 i) = some i := by
  by_cases hneg : i < 0
  · rw [formatI64, if_pos hneg]
    show (parseNatChars (formatNat i.natAbs)).bind
        (fun n => if (n : Int) ≤ 2 ^ 63 then some (-(n : Int)) else none) = some i
    rw [parseNatChars_formatNat]
    show (if ((i.natAbs : Int) ≤ 2 ^ 63) then some (-(i.natAbs : Int)) else none) = some i
    have habs : (i.natAbs : Int) = -i := by omega
    rw [habs, if_pos (by omega : (-i : Int) ≤ 2 ^ 63)]
    simp
  · rw [formatI64, if_neg hneg]
    obtain ⟨c, cs, hc⟩ : ∃ c cs, formatNat i.natAbs = c :: cs := by
      cases hx : formatNat i.natAbs with
      | nil => exact absurd hx (formatNat_ne_nil _)
      | cons c cs => exact ⟨c, cs, rfl⟩
    have hsign := formatNat_head hc
    have hdata : (⟨formatNat i.natAbs⟩ : String) = ⟨c :: cs⟩ := by rw [hc]
    rw [hdata]
    show (if c = '-' then
        (parseNatChars cs).bind
          (fun n => if (n : Int) ≤ 2 ^ 63 then some (-(n : Int)) else none)
      else if c = '+' then
        (parseNatChars cs).bind
          (fun n => if (n : Int) ≤ 2 ^ 63 - 1 then some (n : Int) else none)
      else
        (parseNatChars (c :: cs)).bind
          (fun n => if (n : Int) ≤ 2 ^ 63 - 1 then some (n : Int) else none)) = some i
    rw [if_neg hsign.1, if_neg hsign.2, ← hc, parseNatChars_formatNat]
    show (if ((i.natAbs : Int) ≤ 2 ^ 63 - 1) then some ((i.natAbs : Int)) else none) = some i
    have habs : (i.natAbs : Int) = i := by omega
    rw [habs, if_pos hmax]

/-! C10: the database storage round trip. -/

/-- C10: for every SyncronizedMatch whose key is the canonical decimal string
of an i64 and whose action history and timer serialize without error (with
serializers that invert each other, as serde_json's do), store followed by
load succeeds and returns a match with the same key, action history and
timer. -/
theorem store_load_roundtrip {A T : Type} (c : Codec A T) (m : SyncronizedMatch A T)
    (i : Int) (hkey : m.key = formatI64 i)
    (hmin : -(2 ^ 63) ≤ i) (hmax : i ≤ 2 ^ 63 - 1)
    (hA : ∃ sa, c.encActions m.actions = some sa ∧ c.decActions sa = some m.actions)
    (hT : ∀ t, m.timer = some t →
      ∃ st2, c.encTimer t = some st2 ∧ c.decTimer st2 = some t) :
    ∃ g, store c m = some g ∧ load c g = some m := by
  obtain ⟨mkey, macts, mtimer⟩ := m
  simp only at hkey hT
  subst hkey
  obtain ⟨sa, hsa, hda⟩ := hA
  cases mtimer with
  | none =>
    refine ⟨⟨i, sa, none⟩, ?_, ?_⟩
    · simp [store, hsa, parseI64_formatI64 i hmin hmax]
    · simp [load, hda]
  | some t =>
    obtain ⟨st2, hst, hdt⟩ := hT t rfl
    refine ⟨⟨i, sa, some st2⟩, ?_, ?_⟩
    · simp [store, hsa, hst, parseI64_formatI64 i hmin hmax]
    · simp [load, hda, hdt]

/-- Witness for C10 with identity serializers over strings and the key 75. -/
theorem store_load_roundtrip_witness :
    ∃ g,
      store (⟨fun a => some a, fun a => some a, fun t => some t, fun t => some t⟩ :
          Codec String String)
          (⟨"75", "acts", some "tm"⟩ : SyncronizedMatch String String) = some g ∧
      load (⟨fun a => some a, fun a => some a, fun t => some t, fun t => some t⟩ :
          Codec String String) g =
        some (⟨"75", "acts", some "tm"⟩ : SyncronizedMatch String String) := by
  refine store_load_roundtrip _ _ 75 (by decide) (by norm_num) (by norm_num)
    ⟨"acts", rfl, rfl⟩ ?_
  intro t ht
  injection ht with h
  rw [← h]
  exact ⟨"tm", rfl, rfl⟩

end PacosakoVerif
